import Mathlib

/-!
Verification development for the correlation-tracking contract of a
process-orchestration engine (interface source: src/icorrelation_service.ts).

The repository ships only the service interface; the registry, query engine
and authorization filter it specifies are modelled here from the prose
specification (data model, state machine, error taxonomy, pagination and
visibility rules) as executable Lean definitions, and the specification's
testable properties are proved or refuted against that model.
-/

namespace CorrelationContracts

/-- State of a ProcessInstance: one of running, finished, error. -/
inductive CorrelationState where
| running
| finished
| error
deriving DecidableEq, Repr

/-- Modelled from the spec: a ProcessInstance record. Fields follow §3 of the
specification and the parameters of createEntry in the source interface:
processInstanceId (globally unique), correlationId (owning Correlation,
immutable), processModelId, processModelHash, optional
parentProcessInstanceId (present iff started as a subprocess), state, and an
optional opaque error payload (present iff state is error). -/
structure ProcessInstance where
  processInstanceId : String
  correlationId : String
  processModelId : String
  processModelHash : String
  parentProcessInstanceId : Option String
  state : CorrelationState
  errorPayload : Option String
deriving DecidableEq, Repr

/-- Modelled from the spec: the record store content, in creation order.
Correlations are derived from the ProcessInstance records (a Correlation
exists iff some instance references its correlationId; aggregate state is
computed, not stored, per §4.3). -/
abbrev Dataset := List ProcessInstance

/-- Modelled from the spec: the executing identity. The token is opaque; the
visibility policy of the external Authorization Filter (§4.2) is carried as
two predicates (what the identity may see, keyed by correlationId and by
processInstanceId), plus the authorization bit for the bulk delete, which
§4.3 says is checked once per bulk operation. -/
structure IIdentity where
  token : String
  seesCorrelation : String → Bool
  seesInstance : String → Bool
  canDelete : Bool

/-- Error kinds of §7 of the specification. -/
inductive Err where
| notFound
| forbidden
| duplicateKey
| invalidReference
| invalidTransition
deriving DecidableEq, Repr

/-- A Correlation record as returned by the correlation-valued queries; its
state and owned instances are derived from the Dataset. -/
structure Correlation where
  correlationId : String
deriving DecidableEq, Repr

/-- Keep the first occurrence of every string not already seen, preserving
order; used to list correlations in creation order. -/
def dedupFirst (seen : List String) : List String → List String
| [] => []
| x :: xs => if x ∈ seen then dedupFirst seen xs else x :: dedupFirst (x :: seen) xs

/-- The correlationIds present in the dataset, in creation (first appearance)
order: the stable total order of §4.4 for correlation-valued list queries. -/
def correlationIds (ds : Dataset) : List String :=
  dedupFirst [] (ds.map (fun i => i.correlationId))

/-- Indexed lookup of a ProcessInstance by its id (the store adapter get of
§4.1). -/
def findInstance (ds : Dataset) (p : String) : Option ProcessInstance :=
  ds.find? (fun i => decide (i.processInstanceId = p))

/-- Modelled from the spec: the implementer-chosen documented default cap for
the limit parameter (§4.4, §6). -/
def defaultLimit : Nat := 100

/-- An omitted offset behaves as 0 (§4.4). -/
def effOffset : Option Nat → Nat
| none => 0
| some k => k

/-- An omitted limit, or an explicit limit of 0, behaves as the default cap
(§4.4, §6: limit 0 means use default cap). -/
def effLimit : Option Nat → Nat
| none => defaultLimit
| some 0 => defaultLimit
| some m => m

/-- Offset/limit pagination, applied after predicate and authorization
filtering (§4.1 scan, §4.2(a)). -/
def paginate (off lim : Option Nat) (l : List α) : List α :=
  (l.drop (effOffset off)).take (effLimit lim)

/-- The correlationIds of the dataset that the identity may see, in creation
order (authorization filtering before pagination, §4.2). -/
def visibleCorrelationIds (identity : IIdentity) (ds : Dataset) : List String :=
  (correlationIds ds).filter identity.seesCorrelation

/-- getAll: all Correlations visible to the identity, paginated (source
interface lines 42-51). -/
def getAll (identity : IIdentity) (off lim : Option Nat) (ds : Dataset) : List Correlation :=
  paginate off lim ((visibleCorrelationIds identity ds).map Correlation.mk)

/-- A Correlation is active iff at least one owned ProcessInstance has state
running (§4.3 aggregate rule). -/
def isActiveCorrelation (ds : Dataset) (cid : String) : Bool :=
  ds.any (fun i => decide (i.correlationId = cid) && decide (i.state = CorrelationState.running))

/-- getActive: Correlations with at least one running ProcessInstance,
visible to the identity, paginated (source interface lines 53-63). -/
def getActive (identity : IIdentity) (off lim : Option Nat) (ds : Dataset) : List Correlation :=
  paginate off lim
    (((visibleCorrelationIds identity ds).filter (fun c => isActiveCorrelation ds c)).map Correlation.mk)

/-- getByCorrelationId: single Correlation; NotFoundError if absent or
invisible to the identity, reported identically (§4.2(b), source lines
66-74). -/
def getByCorrelationId (identity : IIdentity) (cid : String) (ds : Dataset) : Except Err Correlation :=
  if decide (cid ∈ correlationIds ds) && identity.seesCorrelation cid then
    Except.ok ⟨cid⟩
  else
    Except.error Err.notFound

/-- A Correlation contains at least one ProcessInstance of the given model. -/
def containsModel (ds : Dataset) (m cid : String) : Bool :=
  ds.any (fun i => decide (i.correlationId = cid) && decide (i.processModelId = m))

/-- getByProcessModelId: Correlations containing at least one ProcessInstance
of the given model, visible, paginated (source lines 76-87). -/
def getByProcessModelId (identity : IIdentity) (m : String) (off lim : Option Nat) (ds : Dataset) : List Correlation :=
  paginate off lim
    (((visibleCorrelationIds identity ds).filter (fun c => containsModel ds m c)).map Correlation.mk)

/-- getByProcessInstanceId: single ProcessInstance; NotFoundError if absent
or invisible, reported identically (§4.2(b), source lines 89-98). -/
def getByProcessInstanceId (identity : IIdentity) (p : String) (ds : Dataset) : Except Err ProcessInstance :=
  match findInstance ds p with
  | some inst =>
      if identity.seesInstance inst.processInstanceId then Except.ok inst
      else Except.error Err.notFound
  | none => Except.error Err.notFound

/-- getSubprocessesForProcessInstance: direct children only (instances whose
parentProcessInstanceId equals the given id), visible, paginated; empty list
when none (source lines 100-112). -/
def getSubprocessesForProcessInstance (identity : IIdentity) (p : String) (off lim : Option Nat) (ds : Dataset) : List ProcessInstance :=
  paginate off lim
    (ds.filter (fun i => decide (i.parentProcessInstanceId = some p) && identity.seesInstance i.processInstanceId))

/-- getProcessInstancesForCorrelation: all visible ProcessInstances of the
given Correlation, paginated (source lines 114-124). -/
def getProcessInstancesForCorrelation (identity : IIdentity) (cid : String) (off lim : Option Nat) (ds : Dataset) : List ProcessInstance :=
  paginate off lim
    (ds.filter (fun i => decide (i.correlationId = cid) && identity.seesInstance i.processInstanceId))

/-- getProcessInstancesForProcessModel: all visible ProcessInstances of the
given ProcessModel, paginated (source lines 126-136). -/
def getProcessInstancesForProcessModel (identity : IIdentity) (m : String) (off lim : Option Nat) (ds : Dataset) : List ProcessInstance :=
  paginate off lim
    (ds.filter (fun i => decide (i.processModelId = m) && identity.seesInstance i.processInstanceId))

/-- getProcessInstancesByState: all visible ProcessInstances in the given
state, paginated (source lines 138-148). -/
def getProcessInstancesByState (identity : IIdentity) (st : CorrelationState) (off lim : Option Nat) (ds : Dataset) : List ProcessInstance :=
  paginate off lim
    (ds.filter (fun i => decide (i.state = st) && identity.seesInstance i.processInstanceId))

/-- Modelled from the spec: createEntry (§4.3, source lines 33-40). Creates a
ProcessInstance in running state; the owning Correlation arises implicitly
from the record. Fails with DuplicateKey if the processInstanceId already
exists (checked first, as listed first in §4.3); fails with InvalidReference
if parentProcessInstanceId is supplied but does not resolve. -/
def createEntry (identity : IIdentity) (cid pid mid mhash : String) (parent : Option String) (ds : Dataset) : Except Err Dataset :=
  if (findInstance ds pid).isSome then Except.error Err.duplicateKey
  else
    match parent with
    | some q =>
        if (findInstance ds q).isSome then
          Except.ok (ds ++ [⟨pid, cid, mid, mhash, some q, CorrelationState.running, none⟩])
        else Except.error Err.invalidReference
    | none => Except.ok (ds ++ [⟨pid, cid, mid, mhash, none, CorrelationState.running, none⟩])

/-- Set the state and error payload of the instance with the given id,
leaving every other record unchanged (the store adapter update of §4.1). -/
def setStateAt (ds : Dataset) (p : String) (st : CorrelationState) (err : Option String) : Dataset :=
  ds.map (fun i =>
    if i.processInstanceId = p then
      { i with state := st, errorPayload := err }
    else i)

/-- Modelled from the spec: finishProcessInstanceInCorrelation (§4.3, source
lines 159-170). NotFoundError if the instance is absent or its correlationId
does not equal the supplied one (mismatch treated identically to not found);
ForbiddenError if the identity may not see the correlation; InvalidTransition
if the instance is already terminal; otherwise transitions running to
finished. -/
def finishProcessInstanceInCorrelation (identity : IIdentity) (cid p : String) (ds : Dataset) : Except Err Dataset :=
  match findInstance ds p with
  | none => Except.error Err.notFound
  | some inst =>
      if inst.correlationId = cid then
        if identity.seesCorrelation cid then
          if inst.state = CorrelationState.running then
            Except.ok (setStateAt ds p CorrelationState.finished none)
          else Except.error Err.invalidTransition
        else Except.error Err.forbidden
      else Except.error Err.notFound

/-- Modelled from the spec: finishProcessInstanceInCorrelationWithError
(§4.3, source lines 172-184). Same contract as the plain finish but sets
state to error and stores the opaque error payload. -/
def finishProcessInstanceInCorrelationWithError (identity : IIdentity) (cid p : String) (e : String) (ds : Dataset) : Except Err Dataset :=
  match findInstance ds p with
  | none => Except.error Err.notFound
  | some inst =>
      if inst.correlationId = cid then
        if identity.seesCorrelation cid then
          if inst.state = CorrelationState.running then
            Except.ok (setStateAt ds p CorrelationState.error (some e))
          else Except.error Err.invalidTransition
        else Except.error Err.forbidden
      else Except.error Err.notFound

/-- Every ProcessInstance of the given Correlation was created under the
given processModelId. -/
def correlationAllOfModel (ds : Dataset) (m cid : String) : Bool :=
  (ds.filter (fun i => decide (i.correlationId = cid))).all (fun i => decide (i.processModelId = m))

/-- Modelled from the spec: deleteCorrelationByProcessModelId (§4.3, source
lines 150-157). Bulk-removes every Correlation whose every ProcessInstance
was created under the given processModelId, together with all their
ProcessInstances; authorization is checked once for the bulk operation. -/
def deleteCorrelationByProcessModelId (identity : IIdentity) (m : String) (ds : Dataset) : Except Err Dataset :=
  if identity.canDelete then
    Except.ok (ds.filter (fun i => ! correlationAllOfModel ds m i.correlationId))
  else Except.error Err.forbidden

/-- One request against the service, with its arguments; one constructor per
method of the source interface. -/
inductive Op where
| opCreateEntry (cid pid mid mhash : String) (parent : Option String)
| opGetAll (off lim : Option Nat)
| opGetActive (off lim : Option Nat)
| opGetByCorrelationId (cid : String)
| opGetByProcessModelId (m : String) (off lim : Option Nat)
| opGetByProcessInstanceId (pid : String)
| opGetSubprocesses (pid : String) (off lim : Option Nat)
| opGetForCorrelation (cid : String) (off lim : Option Nat)
| opGetForProcessModel (m : String) (off lim : Option Nat)
| opGetByState (st : CorrelationState) (off lim : Option Nat)
| opDeleteByProcessModelId (m : String)
| opFinish (cid pid : String)
| opFinishWithError (cid pid e : String)

/-- The result carried back to the caller by one request. -/
inductive Output where
| correlations (l : List Correlation)
| instances (l : List ProcessInstance)
| oneCorrelation (r : Except Err Correlation)
| oneInstance (r : Except Err ProcessInstance)
| ack (r : Except Err Unit)
deriving Repr

/-- The read-only methods of the interface (every get query). -/
def isReadOp : Op → Bool
| Op.opCreateEntry _ _ _ _ _ => false
| Op.opDeleteByProcessModelId _ => false
| Op.opFinish _ _ => false
| Op.opFinishWithError _ _ _ => false
| _ => true

/-- Run one request against the dataset: the next dataset plus the output.
Read queries dispatch to the query engine; writes thread the registry result,
leaving the dataset unchanged when the registry reports an error. -/
def run (identity : IIdentity) (op : Op) (ds : Dataset) : Dataset × Output :=
  match op with
  | Op.opCreateEntry cid pid mid mhash parent =>
      match createEntry identity cid pid mid mhash parent ds with
      | Except.ok ds' => (ds', Output.ack (Except.ok ()))
      | Except.error e => (ds, Output.ack (Except.error e))
  | Op.opGetAll off lim => (ds, Output.correlations (getAll identity off lim ds))
  | Op.opGetActive off lim => (ds, Output.correlations (getActive identity off lim ds))
  | Op.opGetByCorrelationId cid => (ds, Output.oneCorrelation (getByCorrelationId identity cid ds))
  | Op.opGetByProcessModelId m off lim => (ds, Output.correlations (getByProcessModelId identity m off lim ds))
  | Op.opGetByProcessInstanceId pid => (ds, Output.oneInstance (getByProcessInstanceId identity pid ds))
  | Op.opGetSubprocesses pid off lim => (ds, Output.instances (getSubprocessesForProcessInstance identity pid off lim ds))
  | Op.opGetForCorrelation cid off lim => (ds, Output.instances (getProcessInstancesForCorrelation identity cid off lim ds))
  | Op.opGetForProcessModel m off lim => (ds, Output.instances (getProcessInstancesForProcessModel identity m off lim ds))
  | Op.opGetByState st off lim => (ds, Output.instances (getProcessInstancesByState identity st off lim ds))
  | Op.opDeleteByProcessModelId m =>
      match deleteCorrelationByProcessModelId identity m ds with
      | Except.ok ds' => (ds', Output.ack (Except.ok ()))
      | Except.error e => (ds, Output.ack (Except.error e))
  | Op.opFinish cid pid =>
      match finishProcessInstanceInCorrelation identity cid pid ds with
      | Except.ok ds' => (ds', Output.ack (Except.ok ()))
      | Except.error e => (ds, Output.ack (Except.error e))
  | Op.opFinishWithError cid pid e =>
      match finishProcessInstanceInCorrelationWithError identity cid pid e ds with
      | Except.ok ds' => (ds', Output.ack (Except.ok ()))
      | Except.error e => (ds, Output.ack (Except.error e))

/-- Parameter names of each method exactly as declared in the source
interface src/icorrelation_service.ts; an unknown method maps to the empty
list. -/
def signatureParams : String → List String
| "createEntry" =>
    ["identity", "correlationId", "processInstanceId", "processModelId", "processModelHash", "parentProcessInstanceId"]
| "getAll" => ["identity", "offset", "limit"]
| "getActive" => ["identity", "offset", "limit"]
| "getByCorrelationId" => ["identity", "correlationId"]
| "getByProcessModelId" => ["identity", "processModelId", "offset", "limit"]
| "getByProcessInstanceId" => ["identity", "processInstanceId"]
| "getSubprocessesForProcessInstance" => ["identity", "processInstanceId", "offset", "limit"]
| "getProcessInstancesForCorrelation" => ["identity", "correlationId", "offset", "limit"]
| "getProcessInstancesForProcessModel" => ["identity", "processModelId", "offset", "limit"]
| "getProcessInstancesByState" => ["identity", "state", "offset", "limit"]
| "deleteCorrelationByProcessModelId" => ["identity", "processModelId"]
| "finishProcessInstanceInCorrelation" => ["identity", "correlationId", "processInstanceId"]
| "finishProcessInstanceInCorrelationWithError" => ["identity", "correlationId", "processInstanceId", "error"]
| _ => []

/-- A test identity whose visibility filter admits every record and that is
authorized for the bulk delete. -/
def identityAll : IIdentity :=
  ⟨"user-all", fun _ => true, fun _ => true, true⟩

/-- A test identity whose visibility filter admits no record at all. -/
def identityBlind : IIdentity :=
  ⟨"user-blind", fun _ => false, fun _ => false, true⟩

/-- Test instance p1, correlation c1, model m1, running, no parent. -/
def inst1 : ProcessInstance :=
  ⟨"p1", "c1", "m1", "h1", none, CorrelationState.running, none⟩

/-- Test instance p2, correlation c2, model m1, running, no parent. -/
def inst2 : ProcessInstance :=
  ⟨"p2", "c2", "m1", "h1", none, CorrelationState.running, none⟩

/-- Test instance p3, correlation c2, model m2, running, subprocess of p2. -/
def inst3 : ProcessInstance :=
  ⟨"p3", "c2", "m2", "h2", some "p2", CorrelationState.running, none⟩

/-- A one-instance test dataset. -/
def ds1 : Dataset := [inst1]

/-- A three-instance test dataset: c1 owns p1 (model m1); c2 owns p2 (model
m1) and its subprocess p3 (model m2). -/
def ds3 : Dataset := [inst1, inst2, inst3]

/-- Membership in dedupFirst: exactly the elements of the list not already
seen. -/
theorem mem_dedupFirst (y : String) :
    ∀ (l seen : List String), y ∈ dedupFirst seen l ↔ (y ∈ l ∧ y ∉ seen) := by
  intro l
  induction l with
  | nil => intro seen; simp [dedupFirst]
  | cons x xs ih =>
    intro seen
    by_cases hx : x ∈ seen
    · rw [dedupFirst, if_pos hx, ih seen]
      constructor
      · rintro ⟨h1, h2⟩; exact ⟨List.mem_cons_of_mem _ h1, h2⟩
      · rintro ⟨h1, h2⟩
        rcases List.mem_cons.mp h1 with h | h
        · exact absurd (h ▸ hx) h2
        · exact ⟨h, h2⟩
    · rw [dedupFirst, if_neg hx]
      constructor
      · intro hmem
        rcases List.mem_cons.mp hmem with h | h
        · exact ⟨h ▸ List.mem_cons_self x xs, h ▸ hx⟩
        · rcases (ih (x :: seen)).mp h with ⟨h1, h2⟩
          exact ⟨List.mem_cons_of_mem _ h1,
            fun hy => h2 (List.mem_cons_of_mem _ hy)⟩
      · rintro ⟨h1, h2⟩
        by_cases hyx : y = x
        · exact hyx ▸ List.mem_cons_self x _
        · rcases List.mem_cons.mp h1 with h | h
          · exact absurd h hyx
          · refine List.mem_cons_of_mem _ ((ih (x :: seen)).mpr ⟨h, ?_⟩)
            intro hc
            rcases List.mem_cons.mp hc with hc1 | hc2
            · exact hyx hc1
            · exact h2 hc2

/-- A correlationId is listed iff some instance of the dataset references
it. -/
theorem mem_correlationIds (ds : Dataset) (c : String) :
    c ∈ correlationIds ds ↔ ∃ i ∈ ds, i.correlationId = c := by
  unfold correlationIds
  rw [mem_dedupFirst]
  simp [List.mem_map]

/-- Searching an appended list when the first part has no match. -/
theorem find?_append_of_none {α : Type} (p : α → Bool) :
    ∀ (l1 l2 : List α), l1.find? p = none → (l1 ++ l2).find? p = l2.find? p := by
  intro l1
  induction l1 with
  | nil => intro l2 _; rfl
  | cons a tl ih =>
    intro l2 h
    cases hpa : p a with
    | true => simp [List.find?, hpa] at h
    | false =>
      simp only [List.find?, hpa] at h
      simpa [List.cons_append, List.find?, hpa] using ih l2 h

/-- Instance lookup in an appended dataset when the prefix has no match. -/
theorem findInstance_append_of_none (ds l2 : Dataset) (p : String)
    (h : findInstance ds p = none) :
    findInstance (ds ++ l2) p = findInstance l2 p :=
  find?_append_of_none _ ds l2 h

/-- Looking up the updated id after setStateAt yields the updated record. -/
theorem findInstance_setStateAt (p : String) (st : CorrelationState) (er : Option String) :
    ∀ ds : Dataset,
      findInstance (setStateAt ds p st er) p =
        (findInstance ds p).map (fun i => { i with state := st, errorPayload := er }) := by
  intro ds
  induction ds with
  | nil => rfl
  | cons a tl ih =>
    by_cases ha : a.processInstanceId = p
    · simp [findInstance, setStateAt, List.find?, ha]
    · simp only [setStateAt, List.map_cons, if_neg ha] at *
      simp only [findInstance, List.find?, decide_eq_true_eq, ha, decide_False] at *
      simpa [findInstance, setStateAt] using ih

/-- Unpaginated view: omitted offset and limit return the whole list when it
fits under the default cap. -/
theorem paginate_none_none {α : Type} (l : List α) (h : l.length ≤ defaultLimit) :
    paginate none none l = l := by
  simp only [paginate, effOffset, effLimit, List.drop_zero]
  exact List.take_of_length_le h

/-- An explicit positive limit is used as given. -/
theorem effLimit_of_pos {m : Nat} (h : 1 ≤ m) : effLimit (some m) = m := by
  cases m with
  | zero => exact absurd h (by simp)
  | succ n => rfl

/-- A successful lookup returns a member of the dataset bearing the
requested id. -/
theorem findInstance_eq_some (ds : Dataset) (p : String) (i : ProcessInstance)
    (h : findInstance ds p = some i) : i ∈ ds ∧ i.processInstanceId = p := by
  refine ⟨List.mem_of_find?_eq_some h, ?_⟩
  have := List.find?_some h
  simpa using this

/-- C1: for every valid createEntry whose inputs the identity may see, a
subsequent getByProcessInstanceId with the same identity and
processInstanceId returns a ProcessInstance whose correlationId,
processModelId, processModelHash and parentProcessInstanceId equal exactly
the inputs supplied at creation, and whose state is running. -/
theorem C1_createEntry_then_getByProcessInstanceId
    (identity : IIdentity) (cid pid mid mhash : String) (parent : Option String)
    (ds ds' : Dataset)
    (hok : createEntry identity cid pid mid mhash parent ds = Except.ok ds')
    (hsee : identity.seesInstance pid = true) :
    getByProcessInstanceId identity pid ds' =
      Except.ok ⟨pid, cid, mid, mhash, parent, CorrelationState.running, none⟩ := by
  unfold createEntry at hok
  by_cases hdup : (findInstance ds pid).isSome
  · rw [if_pos hdup] at hok; exact absurd hok (by simp)
  · rw [if_neg hdup] at hok
    have hnone : findInstance ds pid = none := by
      cases hfi : findInstance ds pid with
      | none => rfl
      | some i => rw [hfi] at hdup; simp at hdup
    cases parent with
    | none =>
      simp only [Except.ok.injEq] at hok
      rw [← hok]
      unfold getByProcessInstanceId
      rw [findInstance_append_of_none ds _ pid hnone]
      simp [findInstance, List.find?, hsee]
    | some q =>
      by_cases hq : (findInstance ds q).isSome
      · simp only [hq, if_true, Except.ok.injEq] at hok
        rw [← hok]
        unfold getByProcessInstanceId
        rw [findInstance_append_of_none ds _ pid hnone]
        simp [findInstance, List.find?, hsee]
      · simp [hq] at hok

/-- Witness for C1: a concrete creation followed by the corresponding
lookup. -/
theorem C1_witness :
    getByProcessInstanceId identityAll "p9"
        [⟨"p9", "c9", "m9", "h9", none, CorrelationState.running, none⟩] =
      Except.ok ⟨"p9", "c9", "m9", "h9", none, CorrelationState.running, none⟩ :=
  C1_createEntry_then_getByProcessInstanceId identityAll "c9" "p9" "m9" "h9" none []
    [⟨"p9", "c9", "m9", "h9", none, CorrelationState.running, none⟩] rfl rfl

/-- C2: the ProcessInstance state machine is monotonic with initial state
running and terminal states finished and error: after a successful
finishProcessInstanceInCorrelation, a second finish or finish-with-error on
the same instance fails with InvalidTransition, and no finish call on an
instance already in a terminal state ever succeeds, for any identity and
supplied correlationId. -/
theorem C2_terminal_states
    (identity : IIdentity) (cid p : String) (ds ds' : Dataset)
    (h1 : finishProcessInstanceInCorrelation identity cid p ds = Except.ok ds') :
    finishProcessInstanceInCorrelation identity cid p ds' = Except.error Err.invalidTransition
    ∧ (∀ e, finishProcessInstanceInCorrelationWithError identity cid p e ds' =
        Except.error Err.invalidTransition)
    ∧ (∀ (identity2 : IIdentity) (cid2 : String) (ds2 : Dataset) (inst : ProcessInstance),
        findInstance ds2 p = some inst → inst.state ≠ CorrelationState.running →
        (∀ r, finishProcessInstanceInCorrelation identity2 cid2 p ds2 ≠ Except.ok r)
        ∧ (∀ e r, finishProcessInstanceInCorrelationWithError identity2 cid2 p e ds2 ≠ Except.ok r)) := by
  have hterm : ∀ (identity2 : IIdentity) (cid2 : String) (ds2 : Dataset) (inst : ProcessInstance),
      findInstance ds2 p = some inst → inst.state ≠ CorrelationState.running →
      (∀ r, finishProcessInstanceInCorrelation identity2 cid2 p ds2 ≠ Except.ok r)
      ∧ (∀ e r, finishProcessInstanceInCorrelationWithError identity2 cid2 p e ds2 ≠ Except.ok r) := by
    intro identity2 cid2 ds2 inst hfind hstate
    constructor
    · intro r
      unfold finishProcessInstanceInCorrelation
      rw [hfind]
      by_cases hc : inst.correlationId = cid2
      · by_cases hs : identity2.seesCorrelation cid2
        · simp [hc, hs, hstate]
        · simp [hc, hs]
      · simp [hc]
    · intro e r
      unfold finishProcessInstanceInCorrelationWithError
      rw [hfind]
      by_cases hc : inst.correlationId = cid2
      · by_cases hs : identity2.seesCorrelation cid2
        · simp [hc, hs, hstate]
        · simp [hc, hs]
      · simp [hc]
  unfold finishProcessInstanceInCorrelation at h1
  cases hfi : findInstance ds p with
  | none => rw [hfi] at h1; exact absurd h1 (by simp)
  | some inst =>
    rw [hfi] at h1
    by_cases hc : inst.correlationId = cid
    · by_cases hs : identity.seesCorrelation cid
      · by_cases hr : inst.state = CorrelationState.running
        · simp only [hc, hs, hr, if_true, Except.ok.injEq] at h1
          have hfind' : findInstance ds' p =
              some { inst with state := CorrelationState.finished, errorPayload := none } := by
            rw [← h1, findInstance_setStateAt, hfi]; rfl
          refine ⟨?_, ?_, hterm⟩
          · unfold finishProcessInstanceInCorrelation
            rw [hfind']
            simp [hc, hs]
          · intro e
            unfold finishProcessInstanceInCorrelationWithError
            rw [hfind']
            simp [hc, hs]
        · simp [hc, hs, hr] at h1
      · simp [hc, hs] at h1
    · simp [hc] at h1

/-- Witness for C2: finishing the concrete instance p1 once, then both
second finish calls fail with InvalidTransition. -/
theorem C2_witness :
    finishProcessInstanceInCorrelation identityAll "c1" "p1"
        (setStateAt ds1 "p1" CorrelationState.finished none) =
      Except.error Err.invalidTransition
    ∧ finishProcessInstanceInCorrelationWithError identityAll "c1" "p1" "boom"
        (setStateAt ds1 "p1" CorrelationState.finished none) =
      Except.error Err.invalidTransition :=
  ⟨(C2_terminal_states identityAll "c1" "p1" ds1
      (setStateAt ds1 "p1" CorrelationState.finished none) rfl).1,
   (C2_terminal_states identityAll "c1" "p1" ds1
      (setStateAt ds1 "p1" CorrelationState.finished none) rfl).2.1 "boom"⟩

/-- Appending one instance extends the correlation listing by its
correlationId. -/
theorem correlationIds_append_singleton (ds : Dataset) (i : ProcessInstance) (c : String) :
    c ∈ correlationIds (ds ++ [i]) ↔ (c ∈ correlationIds ds ∨ c = i.correlationId) := by
  rw [mem_correlationIds, mem_correlationIds]
  constructor
  · rintro ⟨j, hj, hc⟩
    rcases List.mem_append.mp hj with h | h
    · exact Or.inl ⟨j, h, hc⟩
    · have : j = i := List.mem_singleton.mp h
      exact Or.inr (hc ▸ this ▸ rfl)
  · rintro (⟨j, hj, hc⟩ | hc)
    · exact ⟨j, List.mem_append.mpr (Or.inl hj), hc⟩
    · exact ⟨i, List.mem_append.mpr (Or.inr (List.mem_singleton.mpr rfl)), hc.symm⟩

/-- C3 counterexample: with instance p1 already present and a dangling
parent q supplied, createEntry fails with DuplicateKey, not with
InvalidReference, although the parent reference does not resolve; so the
duplicate and dangling-parent conditions do not both map to their errors
independently as the claim states. -/
theorem C3_counterexample :
    createEntry identityAll "c1" "p1" "m1" "h1" (some "q") ds1 = Except.error Err.duplicateKey
    ∧ Err.duplicateKey ≠ Err.invalidReference
    ∧ (findInstance ds1 "q").isSome = false :=
  ⟨rfl, by decide, rfl⟩

/-- C3 (amended): createEntry fails with DuplicateKey iff the supplied
processInstanceId already exists; it fails with InvalidReference iff the id
is fresh and the supplied parentProcessInstanceId does not resolve (the
duplicate check takes precedence when both conditions hold); otherwise, that
is whenever the id is fresh and any supplied parent resolves, it succeeds,
appending a ProcessInstance in running state carrying exactly the supplied
fields, and the owning Correlation is implicitly present afterwards, created
fresh when no instance referenced it and reused otherwise. -/
theorem C3_createEntry_error_conditions
    (identity : IIdentity) (cid pid mid mhash : String) (parent : Option String) (ds : Dataset) :
    (createEntry identity cid pid mid mhash parent ds = Except.error Err.duplicateKey
      ↔ (findInstance ds pid).isSome = true)
    ∧ (createEntry identity cid pid mid mhash parent ds = Except.error Err.invalidReference
      ↔ ((findInstance ds pid).isSome = false
          ∧ ∃ q, parent = some q ∧ (findInstance ds q).isSome = false))
    ∧ (((findInstance ds pid).isSome = false
        ∧ (∀ q, parent = some q → (findInstance ds q).isSome = true)) →
        createEntry identity cid pid mid mhash parent ds
          = Except.ok (ds ++ [⟨pid, cid, mid, mhash, parent, CorrelationState.running, none⟩])
        ∧ (∀ c, c ∈ correlationIds
              (ds ++ [⟨pid, cid, mid, mhash, parent, CorrelationState.running, none⟩])
            ↔ (c ∈ correlationIds ds ∨ c = cid))) := by
  by_cases hdup : (findInstance ds pid).isSome
  · refine ⟨by simp [createEntry, hdup], by simp [createEntry, hdup], ?_⟩
    rintro ⟨hfresh, _⟩
    rw [hdup] at hfresh
    exact absurd hfresh (by decide)
  · cases parent with
    | none =>
      refine ⟨by simp [createEntry, hdup], by simp [createEntry, hdup], ?_⟩
      intro _
      exact ⟨by simp [createEntry, hdup], fun c => correlationIds_append_singleton ds _ c⟩
    | some q =>
      by_cases hq : (findInstance ds q).isSome
      · have hqn : ¬ findInstance ds q = none := by
          intro hn; rw [hn] at hq; simp at hq
        refine ⟨by simp [createEntry, hdup, hq], by simp [createEntry, hdup, hq, hqn], ?_⟩
        intro _
        exact ⟨by simp [createEntry, hdup, hq], fun c => correlationIds_append_singleton ds _ c⟩
      · have hqn : findInstance ds q = none := by
          cases hn : findInstance ds q with
          | none => rfl
          | some i => rw [hn] at hq; simp at hq
        refine ⟨by simp [createEntry, hdup, hq], ?_, ?_⟩
        · simp [createEntry, hdup, hq, hqn]
        · rintro ⟨_, hres⟩
          exact absurd (hres q rfl) hq

/-- Witness for C3 (amended): a concrete fresh creation succeeds, appending
the new running instance, and the new correlation c9 is implicitly present
afterwards. -/
theorem C3_witness :
    createEntry identityAll "c9" "p9" "m9" "h9" none ds1
      = Except.ok (ds1 ++ [⟨"p9", "c9", "m9", "h9", none, CorrelationState.running, none⟩])
    ∧ ("c9" ∈ correlationIds
          (ds1 ++ [⟨"p9", "c9", "m9", "h9", none, CorrelationState.running, none⟩])
        ↔ ("c9" ∈ correlationIds ds1 ∨ "c9" = "c9")) := by
  have h := (C3_createEntry_error_conditions identityAll "c9" "p9" "m9" "h9" none ds1).2.2
      ⟨rfl, fun q hq => Option.noConfusion hq⟩
  exact ⟨h.1, h.2 "c9"⟩

/-- The aggregate activity bit holds iff some owned instance is running. -/
theorem isActiveCorrelation_iff (ds : Dataset) (cid : String) :
    isActiveCorrelation ds cid = true
      ↔ ∃ i ∈ ds, i.correlationId = cid ∧ i.state = CorrelationState.running := by
  unfold isActiveCorrelation
  rw [List.any_eq_true]
  simp

/-- The model-containment bit holds iff some owned instance has the model. -/
theorem containsModel_iff (ds : Dataset) (m cid : String) :
    containsModel ds m cid = true
      ↔ ∃ i ∈ ds, i.correlationId = cid ∧ i.processModelId = m := by
  unfold containsModel
  rw [List.any_eq_true]
  simp

/-- C4: for an identity whose filter admits every correlation and a dataset
within the default cap, a Correlation appears in getActive iff at least one
of its ProcessInstances is running; once all of them are terminal it no
longer appears in getActive but still appears in getAll. -/
theorem C4_getActive_iff_running
    (identity : IIdentity) (ds : Dataset) (cid : String)
    (hsee : ∀ c, identity.seesCorrelation c = true)
    (hsize : (correlationIds ds).length ≤ defaultLimit) :
    (Correlation.mk cid ∈ getActive identity none none ds
      ↔ ∃ i ∈ ds, i.correlationId = cid ∧ i.state = CorrelationState.running)
    ∧ ((∀ i ∈ ds, i.correlationId = cid → i.state ≠ CorrelationState.running) →
        Correlation.mk cid ∉ getActive identity none none ds)
    ∧ ((∃ i ∈ ds, i.correlationId = cid) →
        Correlation.mk cid ∈ getAll identity none none ds) := by
  have hvis : visibleCorrelationIds identity ds = correlationIds ds := by
    unfold visibleCorrelationIds
    exact List.filter_eq_self.mpr (fun a _ => hsee a)
  have hActiveEq : getActive identity none none ds =
      ((correlationIds ds).filter (fun c => isActiveCorrelation ds c)).map Correlation.mk := by
    unfold getActive
    rw [hvis]
    apply paginate_none_none
    rw [List.length_map]
    exact le_trans (List.length_filter_le _ _) hsize
  have hAllEq : getAll identity none none ds = (correlationIds ds).map Correlation.mk := by
    unfold getAll
    rw [hvis]
    apply paginate_none_none
    rw [List.length_map]
    exact hsize
  have hmem : Correlation.mk cid ∈ getActive identity none none ds ↔
      (cid ∈ correlationIds ds ∧ isActiveCorrelation ds cid = true) := by
    rw [hActiveEq]
    simp [List.mem_map, List.mem_filter, Correlation.mk.injEq]
  have hiff : Correlation.mk cid ∈ getActive identity none none ds
      ↔ ∃ i ∈ ds, i.correlationId = cid ∧ i.state = CorrelationState.running := by
    rw [hmem, isActiveCorrelation_iff]
    constructor
    · exact fun h => h.2
    · intro h
      rcases h with ⟨i, hi, hc, hr⟩
      exact ⟨(mem_correlationIds ds cid).mpr ⟨i, hi, hc⟩, ⟨i, hi, hc, hr⟩⟩
  refine ⟨hiff, ?_, ?_⟩
  · intro hterm hin
    rcases hiff.mp hin with ⟨i, hi, hc, hr⟩
    exact hterm i hi hc hr
  · rintro ⟨i, hi, hc⟩
    rw [hAllEq]
    simp only [List.mem_map, Correlation.mk.injEq]
    exact ⟨cid, (mem_correlationIds ds cid).mpr ⟨i, hi, hc⟩, rfl⟩

/-- Witness for C4: correlation c1 with its running instance p1 appears in
both getActive and getAll. -/
theorem C4_witness :
    (⟨"c1"⟩ : Correlation) ∈ getActive identityAll none none ds1
    ∧ (⟨"c1"⟩ : Correlation) ∈ getAll identityAll none none ds1 := by
  have h := C4_getActive_iff_running identityAll ds1 "c1" (fun c => rfl) (by decide)
  exact ⟨h.1.mpr ⟨inst1, by simp [ds1], rfl, rfl⟩, h.2.2 ⟨inst1, by simp [ds1], rfl⟩⟩

/-- C5 counterexample: with one visible record, the call with offset 0 and
limit 0 returns one record, not min(0, max(0, 1 - 0)) = 0 as the claim
demands for all m greater or equal 0, because an explicit limit of 0 means
the default cap per the interface contract. -/
theorem C5_counterexample :
    (getAll identityAll (some 0) (some 0) ds1).length = 1
    ∧ (visibleCorrelationIds identityAll ds1).length = 1
    ∧ (1 : Nat) ≠ min 0 (1 - 0) :=
  ⟨rfl, rfl, by decide⟩

/-- Core pagination law shared by every list query: for a positive explicit
limit m the page of a base list L with n elements has exactly min m (n - k)
records and is the slice at k of the full view requested with offset 0 and
limit n. -/
theorem paginate_slice {α : Type} (L : List α) (k m n : Nat) (hm : 1 ≤ m)
    (hn : L.length = n) :
    (paginate (some k) (some m) L).length = min m (n - k)
    ∧ paginate (some k) (some m) L = ((paginate (some 0) (some n) L).drop k).take m := by
  subst hn
  have hfull : paginate (some 0) (some L.length) L = L := by
    show (L.drop 0).take (effLimit (some L.length)) = L
    rw [List.drop_zero]
    cases hN : L.length with
    | zero => simp [effLimit, List.length_eq_zero.mp hN]
    | succ n' =>
      rw [effLimit_of_pos (show 1 ≤ n' + 1 by omega)]
      exact List.take_of_length_le (le_of_eq hN)
  constructor
  · show ((L.drop k).take (effLimit (some m))).length = min m (L.length - k)
    rw [effLimit_of_pos hm, List.length_take, List.length_drop]
  · rw [hfull]
    show (L.drop k).take (effLimit (some m)) = (L.drop k).take m
    rw [effLimit_of_pos hm]

/-- C5 (amended): for every list query of the interface, every identity and
dataset, every offset k, and every limit m at least 1 (an explicit limit of
0 instead selects the default cap), the call returns exactly min(m, N - k)
records where N is the number of records visible to the identity for that
query, equal to the slice from k of length m of the stable order produced by
offset 0 and limit N; authorization filtering is applied before offset and
limit, so only visible records occupy page slots. -/
theorem C5_pagination
    (identity : IIdentity) (ds : Dataset) (k m : Nat) (hm : 1 ≤ m) :
    ((getAll identity (some k) (some m) ds).length
        = min m ((visibleCorrelationIds identity ds).length - k)
      ∧ getAll identity (some k) (some m) ds
        = ((getAll identity (some 0)
              (some (visibleCorrelationIds identity ds).length) ds).drop k).take m)
    ∧ ((getActive identity (some k) (some m) ds).length
        = min m (((visibleCorrelationIds identity ds).filter
            (fun c => isActiveCorrelation ds c)).length - k)
      ∧ getActive identity (some k) (some m) ds
        = ((getActive identity (some 0)
              (some ((visibleCorrelationIds identity ds).filter
                (fun c => isActiveCorrelation ds c)).length) ds).drop k).take m)
    ∧ (∀ pm, (getByProcessModelId identity pm (some k) (some m) ds).length
        = min m (((visibleCorrelationIds identity ds).filter
            (fun c => containsModel ds pm c)).length - k)
      ∧ getByProcessModelId identity pm (some k) (some m) ds
        = ((getByProcessModelId identity pm (some 0)
              (some ((visibleCorrelationIds identity ds).filter
                (fun c => containsModel ds pm c)).length) ds).drop k).take m)
    ∧ (∀ pp, (getSubprocessesForProcessInstance identity pp (some k) (some m) ds).length
        = min m ((ds.filter (fun i => decide (i.parentProcessInstanceId = some pp)
            && identity.seesInstance i.processInstanceId)).length - k)
      ∧ getSubprocessesForProcessInstance identity pp (some k) (some m) ds
        = ((getSubprocessesForProcessInstance identity pp (some 0)
              (some (ds.filter (fun i => decide (i.parentProcessInstanceId = some pp)
                && identity.seesInstance i.processInstanceId)).length) ds).drop k).take m)
    ∧ (∀ pc, (getProcessInstancesForCorrelation identity pc (some k) (some m) ds).length
        = min m ((ds.filter (fun i => decide (i.correlationId = pc)
            && identity.seesInstance i.processInstanceId)).length - k)
      ∧ getProcessInstancesForCorrelation identity pc (some k) (some m) ds
        = ((getProcessInstancesForCorrelation identity pc (some 0)
              (some (ds.filter (fun i => decide (i.correlationId = pc)
                && identity.seesInstance i.processInstanceId)).length) ds).drop k).take m)
    ∧ (∀ pm, (getProcessInstancesForProcessModel identity pm (some k) (some m) ds).length
        = min m ((ds.filter (fun i => decide (i.processModelId = pm)
            && identity.seesInstance i.processInstanceId)).length - k)
      ∧ getProcessInstancesForProcessModel identity pm (some k) (some m) ds
        = ((getProcessInstancesForProcessModel identity pm (some 0)
              (some (ds.filter (fun i => decide (i.processModelId = pm)
                && identity.seesInstance i.processInstanceId)).length) ds).drop k).take m)
    ∧ (∀ st, (getProcessInstancesByState identity st (some k) (some m) ds).length
        = min m ((ds.filter (fun i => decide (i.state = st)
            && identity.seesInstance i.processInstanceId)).length - k)
      ∧ getProcessInstancesByState identity st (some k) (some m) ds
        = ((getProcessInstancesByState identity st (some 0)
              (some (ds.filter (fun i => decide (i.state = st)
                && identity.seesInstance i.processInstanceId)).length) ds).drop k).take m) := by
  exact ⟨paginate_slice _ k m _ hm (List.length_map _ _),
    paginate_slice _ k m _ hm (List.length_map _ _),
    fun pm => paginate_slice _ k m _ hm (List.length_map _ _),
    fun pp => paginate_slice _ k m _ hm rfl,
    fun pc => paginate_slice _ k m _ hm rfl,
    fun pm => paginate_slice _ k m _ hm rfl,
    fun st => paginate_slice _ k m _ hm rfl⟩

/-- Witness for C5 at offset 1, limit 2: the getAll page over the two
visible correlations of the three-instance dataset, and the instance-list
page for correlation c2. -/
theorem C5_witness :
    (getAll identityAll (some 1) (some 2) ds3).length
      = min 2 ((visibleCorrelationIds identityAll ds3).length - 1)
    ∧ getAll identityAll (some 1) (some 2) ds3
      = ((getAll identityAll (some 0)
            (some (visibleCorrelationIds identityAll ds3).length) ds3).drop 1).take 2
    ∧ (getProcessInstancesForCorrelation identityAll "c2" (some 1) (some 2) ds3).length
      = min 2 ((ds3.filter (fun i => decide (i.correlationId = "c2")
          && identityAll.seesInstance i.processInstanceId)).length - 1) := by
  have h := C5_pagination identityAll ds3 1 2 (by decide)
  exact ⟨h.1.1, h.1.2, (h.2.2.2.2.1 "c2").1⟩

/-- C6: the single-record fetches report an invisible record with exactly
the same NotFoundError as an absent record, and a finish call whose supplied
correlationId does not match the instance fails with exactly the same
NotFoundError as a finish on an absent instance; the outputs of these
operations never distinguish absent from invisible or mismatched. -/
theorem C6_notFound_indistinguishable
    (identity : IIdentity) (ds : Dataset)
    (cidInvisible cidAbsent pidInvisible pidAbsent cidSupplied pidMismatch : String)
    (inst : ProcessInstance)
    (h1 : identity.seesCorrelation cidInvisible = false)
    (h2 : cidAbsent ∉ correlationIds ds)
    (h3 : identity.seesInstance pidInvisible = false)
    (h4 : findInstance ds pidAbsent = none)
    (h5 : findInstance ds pidMismatch = some inst)
    (h6 : inst.correlationId ≠ cidSupplied) :
    getByCorrelationId identity cidInvisible ds = Except.error Err.notFound
    ∧ getByCorrelationId identity cidAbsent ds = Except.error Err.notFound
    ∧ getByProcessInstanceId identity pidInvisible ds = Except.error Err.notFound
    ∧ getByProcessInstanceId identity pidAbsent ds = Except.error Err.notFound
    ∧ finishProcessInstanceInCorrelation identity cidSupplied pidMismatch ds = Except.error Err.notFound
    ∧ finishProcessInstanceInCorrelation identity cidSupplied pidAbsent ds = Except.error Err.notFound := by
  refine ⟨?_, ?_, ?_, ?_, ?_, ?_⟩
  · simp [getByCorrelationId, h1]
  · simp [getByCorrelationId, h2]
  · unfold getByProcessInstanceId
    cases hfi : findInstance ds pidInvisible with
    | none => rfl
    | some i =>
      have hid := (findInstance_eq_some ds pidInvisible i hfi).2
      simp [hid, h3]
  · unfold getByProcessInstanceId
    rw [h4]
  · unfold finishProcessInstanceInCorrelation
    rw [h5]
    simp [h6]
  · unfold finishProcessInstanceInCorrelation
    rw [h4]

/-- Witness for C6: on the one-instance dataset, a blind identity fetching
the existing c1 and p1, anyone fetching the absent cx and px, and finish
calls with a mismatched correlationId and with an absent instance, all
report NotFoundError. -/
theorem C6_witness :
    getByCorrelationId identityBlind "c1" ds1 = Except.error Err.notFound
    ∧ getByCorrelationId identityBlind "cx" ds1 = Except.error Err.notFound
    ∧ getByProcessInstanceId identityBlind "p1" ds1 = Except.error Err.notFound
    ∧ getByProcessInstanceId identityBlind "px" ds1 = Except.error Err.notFound
    ∧ finishProcessInstanceInCorrelation identityBlind "c2" "p1" ds1 = Except.error Err.notFound
    ∧ finishProcessInstanceInCorrelation identityBlind "c2" "px" ds1 = Except.error Err.notFound :=
  C6_notFound_indistinguishable identityBlind ds1 "c1" "cx" "p1" "px" "c2" "p1" inst1
    rfl (by decide) rfl rfl rfl (by decide)

/-- C7: for an identity whose filter admits every instance and a dataset
within the default cap, getSubprocessesForProcessInstance returns exactly
the instances created with parentProcessInstanceId equal to the given id
(direct children only, so grandchildren are excluded), and returns the empty
list, not an error, when there are none. -/
theorem C7_subprocesses_direct_children
    (identity : IIdentity) (p : String) (ds : Dataset)
    (hsee : ∀ q, identity.seesInstance q = true)
    (hsize : ds.length ≤ defaultLimit) :
    (∀ i, i ∈ getSubprocessesForProcessInstance identity p none none ds
        ↔ (i ∈ ds ∧ i.parentProcessInstanceId = some p))
    ∧ ((∀ i ∈ ds, i.parentProcessInstanceId ≠ some p) →
        getSubprocessesForProcessInstance identity p none none ds = []) := by
  have heq : getSubprocessesForProcessInstance identity p none none ds =
      ds.filter (fun i =>
        decide (i.parentProcessInstanceId = some p) && identity.seesInstance i.processInstanceId) := by
    unfold getSubprocessesForProcessInstance
    apply paginate_none_none
    exact le_trans (List.length_filter_le _ _) hsize
  constructor
  · intro i
    rw [heq, List.mem_filter]
    simp [hsee]
  · intro hnone
    rw [heq, List.filter_eq_nil_iff]
    intro a ha
    simp [hsee, hnone a ha]

/-- Witness for C7: in the three-instance dataset, p3 is listed as a direct
subprocess of p2, and an id without children yields the empty list. -/
theorem C7_witness :
    inst3 ∈ getSubprocessesForProcessInstance identityAll "p2" none none ds3
    ∧ getSubprocessesForProcessInstance identityAll "p0" none none ds3 = [] := by
  have h := C7_subprocesses_direct_children identityAll "p2" ds3 (fun q => rfl) (by decide)
  have h0 := C7_subprocesses_direct_children identityAll "p0" ds3 (fun q => rfl) (by decide)
  exact ⟨(h.1 inst3).mpr ⟨by decide, rfl⟩, h0.2 (by decide)⟩

/-- C8 counterexample: in the three-instance dataset, deleting by model m1
removes only correlation c1 (whose every instance has model m1); correlation
c2 keeps its m1 instance p2 because it also owns the m2 instance p3, so
getByProcessModelId m1 afterwards returns c2 and not the empty sequence the
claim demands. -/
theorem C8_counterexample :
    deleteCorrelationByProcessModelId identityAll "m1" ds3 = Except.ok [inst2, inst3]
    ∧ getByProcessModelId identityAll "m1" none none [inst2, inst3] = [⟨"c2"⟩]
    ∧ ([⟨"c2"⟩] : List Correlation) ≠ [] :=
  ⟨rfl, rfl, by decide⟩

/-- C8 (amended): a successful deleteCorrelationByProcessModelId removes
exactly the instances of the correlations whose every ProcessInstance was
created under the given model; on a dataset with unique instance ids,
getByProcessInstanceId on any purged instance afterwards fails with
NotFoundError; and whenever every correlation containing an instance of the
given model contained only instances of that model, getByProcessModelId for
the model afterwards returns the empty sequence — a correlation mixing the
model with another survives and can still be reported, as the
counterexample shows. -/
theorem C8_delete_by_model
    (identity : IIdentity) (m : String) (ds ds' : Dataset)
    (hok : deleteCorrelationByProcessModelId identity m ds = Except.ok ds')
    (hnodup : (ds.map (fun i => i.processInstanceId)).Nodup) :
    (∀ i, i ∈ ds' ↔ (i ∈ ds ∧ correlationAllOfModel ds m i.correlationId = false))
    ∧ (∀ i ∈ ds, correlationAllOfModel ds m i.correlationId = true →
        ∀ identity2 : IIdentity,
          getByProcessInstanceId identity2 i.processInstanceId ds' = Except.error Err.notFound)
    ∧ ((∀ c, containsModel ds m c = true → correlationAllOfModel ds m c = true) →
        ∀ (identity2 : IIdentity) (off lim : Option Nat),
          getByProcessModelId identity2 m off lim ds' = []) := by
  have hds' : ds' = ds.filter (fun i => ! correlationAllOfModel ds m i.correlationId) := by
    unfold deleteCorrelationByProcessModelId at hok
    by_cases hcd : identity.canDelete
    · simp only [hcd, if_true, Except.ok.injEq] at hok
      exact hok.symm
    · simp [hcd] at hok
  have hmem : ∀ i, i ∈ ds' ↔ (i ∈ ds ∧ correlationAllOfModel ds m i.correlationId = false) := by
    intro i
    rw [hds', List.mem_filter]
    simp
  refine ⟨hmem, ?_, ?_⟩
  · intro i hi hall identity2
    unfold getByProcessInstanceId
    cases hfi : findInstance ds' i.processInstanceId with
    | none => rfl
    | some j =>
      exfalso
      have hj := findInstance_eq_some ds' i.processInstanceId j hfi
      have hj' := (hmem j).mp hj.1
      have hji : j = i := List.inj_on_of_nodup_map hnodup hj'.1 hi hj.2
      rw [hji] at hj'
      exact absurd (hall.symm.trans hj'.2) (by decide)
  · intro hmix identity2 off lim
    unfold getByProcessModelId
    have hnil : (visibleCorrelationIds identity2 ds').filter (fun c => containsModel ds' m c) = [] := by
      rw [List.filter_eq_nil_iff]
      intro c hc hcm
      rcases (containsModel_iff ds' m c).mp hcm with ⟨i, hi', hcid, hmod⟩
      have hi := (hmem i).mp hi'
      have hcm' : containsModel ds m i.correlationId = true :=
        (containsModel_iff ds m i.correlationId).mpr ⟨i, hi.1, rfl, hmod⟩
      exact absurd ((hmix i.correlationId hcm').symm.trans hi.2) (by decide)
    rw [hnil]
    simp [paginate]

/-- Witness for C8: deleting model m1 from the three-instance dataset purges
p1, whose lookup then reports NotFoundError, and the survivor p2 satisfies
the removal characterization. -/
theorem C8_witness :
    getByProcessInstanceId identityAll inst1.processInstanceId [inst2, inst3] =
      Except.error Err.notFound
    ∧ (inst2 ∈ ([inst2, inst3] : Dataset)
        ↔ (inst2 ∈ ds3 ∧ correlationAllOfModel ds3 "m1" inst2.correlationId = false)) := by
  have h := C8_delete_by_model identityAll "m1" ds3 [inst2, inst3] rfl (by decide)
  exact ⟨h.2.1 inst1 (by decide) rfl identityAll, h.1 inst2⟩

/-- C9 counterexample: in the source interface the single-record fetches
getByCorrelationId and getByProcessInstanceId declare no offset or limit
parameter at all, so it is not the case that every one of the seven
read-query shapes accepts optional offset and limit parameters. -/
theorem C9_counterexample :
    "offset" ∉ signatureParams "getByCorrelationId"
    ∧ "limit" ∉ signatureParams "getByCorrelationId"
    ∧ "offset" ∉ signatureParams "getByProcessInstanceId"
    ∧ "limit" ∉ signatureParams "getByProcessInstanceId" := by
  refine ⟨?_, ?_, ?_, ?_⟩ <;> decide

/-- C9 (amended): every list-valued read query of the interface declares
optional offset and limit parameters, an omitted offset behaves as 0, and an
omitted limit behaves as the documented default cap, which bounds the size
of every list response; the single-record fetches getByCorrelationId and
getByProcessInstanceId take no pagination parameters. -/
theorem C9_pagination_params :
    ("offset" ∈ signatureParams "getAll" ∧ "limit" ∈ signatureParams "getAll")
    ∧ ("offset" ∈ signatureParams "getActive" ∧ "limit" ∈ signatureParams "getActive")
    ∧ ("offset" ∈ signatureParams "getByProcessModelId"
        ∧ "limit" ∈ signatureParams "getByProcessModelId")
    ∧ ("offset" ∈ signatureParams "getSubprocessesForProcessInstance"
        ∧ "limit" ∈ signatureParams "getSubprocessesForProcessInstance")
    ∧ ("offset" ∈ signatureParams "getProcessInstancesForCorrelation"
        ∧ "limit" ∈ signatureParams "getProcessInstancesForCorrelation")
    ∧ ("offset" ∈ signatureParams "getProcessInstancesForProcessModel"
        ∧ "limit" ∈ signatureParams "getProcessInstancesForProcessModel")
    ∧ ("offset" ∈ signatureParams "getProcessInstancesByState"
        ∧ "limit" ∈ signatureParams "getProcessInstancesByState")
    ∧ effOffset none = 0
    ∧ effLimit none = defaultLimit
    ∧ (∀ (identity : IIdentity) (off : Option Nat) (ds : Dataset),
        (getAll identity off none ds).length ≤ defaultLimit
        ∧ (getActive identity off none ds).length ≤ defaultLimit
        ∧ (∀ m, (getByProcessModelId identity m off none ds).length ≤ defaultLimit)
        ∧ (∀ p, (getSubprocessesForProcessInstance identity p off none ds).length ≤ defaultLimit)
        ∧ (∀ c, (getProcessInstancesForCorrelation identity c off none ds).length ≤ defaultLimit)
        ∧ (∀ m, (getProcessInstancesForProcessModel identity m off none ds).length ≤ defaultLimit)
        ∧ (∀ st, (getProcessInstancesByState identity st off none ds).length ≤ defaultLimit)) := by
  have hb : ∀ (α : Type) (off : Option Nat) (l : List α),
      (paginate off none l).length ≤ defaultLimit := by
    intro α off l
    exact List.length_take_le _ _
  refine ⟨by decide, by decide, by decide, by decide, by decide, by decide, by decide,
    rfl, rfl, ?_⟩
  intro identity off ds
  exact ⟨hb _ off _, hb _ off _, fun m => hb _ off _, fun p => hb _ off _,
    fun c => hb _ off _, fun m => hb _ off _, fun st => hb _ off _⟩

/-- C10: every read query of the interface leaves the record set unchanged,
so running any read query first never alters the result of any subsequent
operation. -/
theorem C10_reads_pure
    (identity : IIdentity) (op : Op) (ds : Dataset)
    (hread : isReadOp op = true) :
    (run identity op ds).1 = ds
    ∧ (∀ (identity2 : IIdentity) (op2 : Op),
        run identity2 op2 (run identity op ds).1 = run identity2 op2 ds) := by
  have h1 : (run identity op ds).1 = ds := by
    cases op <;> first | rfl | simp [isReadOp] at hread
  exact ⟨h1, fun identity2 op2 => by rw [h1]⟩

/-- Witness for C10: a getAll leaves the one-instance dataset unchanged and
a following finish behaves as on the original dataset. -/
theorem C10_witness :
    (run identityAll (Op.opGetAll none none) ds1).1 = ds1
    ∧ run identityAll (Op.opFinish "c1" "p1") (run identityAll (Op.opGetAll none none) ds1).1
      = run identityAll (Op.opFinish "c1" "p1") ds1 := by
  have h := C10_reads_pure identityAll (Op.opGetAll none none) ds1 rfl
  exact ⟨h.1, h.2 identityAll (Op.opFinish "c1" "p1")⟩

end CorrelationContracts
